import Mathlib

/-!
Shallow embedding of the Exograph core in Lean 4, for checking the
natural-language specification against the code.

The embedding follows the Rust sources:
  * `libs/exo-sql/src/sql/transaction.rs` (transaction script, steps,
    retry/backoff policy, precheck semantics)
  * `crates/postgres-subsystem/postgres-graphql-resolver/src/postgres_query.rs`
    (selection planner: field mapping, unauthorized-field masking,
    transitive-relation expansion)
  * `crates/postgres-subsystem/postgres-graphql-resolver/src/order_by_mapper.rs`
    (order-by traversal with field-level access checks)
  * `crates/postgres-subsystem/postgres-graphql-resolver/src/column_path_util.rs`
    (column-path composition)
  * `crates/postgres-subsystem/postgres-graphql-resolver/src/abstract_operation_resolver.rs`
    (resolver boundary error mapping)
  * `crates/core-subsystem/core-resolver/src/validation/operation_validator.rs`
    (variable coercion)
  * `crates/postgres-subsystem/postgres-graphql-resolver/src/computed_fields.rs`
    (computed-field parent snapshot)

Machine integers are modelled as `Nat` with explicit saturation at
`2 ^ 64 - 1` where the Rust code uses `u64` saturating arithmetic.
Opaque external values (database rows, request contexts, already-solved
access predicates) are abstracted as parameters.
-/

namespace Exograph

/-! ## Column paths (`exo-sql` data model, `column_path_util.rs`) -/

/-- One link in a physical column path.  The source type
(`exo_sql::ColumnPathLink`) is either a relation hop (carrying the pairs of
self/foreign column ids and an optional table alias) or a terminal leaf
column. -/
inductive ColumnPathLink where
  | relation (columnPairs : List (Nat × Nat)) (linkedTableAlias : Option String)
  | leaf (columnId : Nat)
deriving DecidableEq

/-- Modelled from the spec: `PhysicalColumnPath` (its source lives in the
`exo-sql` crate, outside the provided sources) is a non-empty path from an
origin table through relation links, ending either at a relation or at a leaf
column.  It is modelled as a non-empty list of links. -/
def PhysicalColumnPath := { links : List ColumnPathLink // links ≠ [] }

instance : DecidableEq PhysicalColumnPath := fun a b =>
  decidable_of_iff (a.val = b.val) Subtype.ext_iff.symm

/-- Modelled from the spec: a path consisting of a single link. -/
def PhysicalColumnPath.init (link : ColumnPathLink) : PhysicalColumnPath :=
  ⟨[link], by simp⟩

/-- Modelled from the spec: a path consisting of a single leaf column. -/
def PhysicalColumnPath.leaf (columnId : Nat) : PhysicalColumnPath :=
  ⟨[ColumnPathLink.leaf columnId], by simp⟩

/-- Modelled from the spec: appending a link at the end of a path. -/
def PhysicalColumnPath.push (p : PhysicalColumnPath) (link : ColumnPathLink) :
    PhysicalColumnPath :=
  ⟨p.val ++ [link], by simp⟩

/-- Modelled from the spec: the last link of a (non-empty) path. -/
def PhysicalColumnPath.lastLink (p : PhysicalColumnPath) : ColumnPathLink :=
  p.val.getLast p.property

/-- Modelled from the spec: the path without its last link; `none` when the
path had a single link. -/
def PhysicalColumnPath.withoutLast (p : PhysicalColumnPath) :
    Option PhysicalColumnPath :=
  if h : p.val.dropLast = [] then none else some ⟨p.val.dropLast, h⟩

/-- A list of links is well formed when no leaf is followed by another link,
i.e. every link before the last one is a relation link. -/
def linksWellFormed (links : List ColumnPathLink) : Bool :=
  links.dropLast.all fun link =>
    match link with
    | ColumnPathLink.relation _ _ => true
    | ColumnPathLink.leaf _ => false

/-- Embedding of `to_column_path`
(`column_path_util.rs`, lines 12-44): compose a parent column path with an
optional next link, dropping a trailing leaf before appending. -/
def toColumnPath (parentColumnPath : Option PhysicalColumnPath)
    (nextColumnPathLink : Option ColumnPathLink) : Option PhysicalColumnPath :=
  match parentColumnPath with
  | some parent =>
    match nextColumnPathLink with
    | some next =>
      let basePair : Option PhysicalColumnPath × Option Nat :=
        match parent.lastLink with
        | ColumnPathLink.leaf columnId => (parent.withoutLast, some columnId)
        | _ => (some parent, none)
      match basePair.1 with
      | some path => some (path.push next)
      | none =>
        match basePair.2, next with
        | _, ColumnPathLink.relation pairs tblAlias =>
          some (PhysicalColumnPath.init (ColumnPathLink.relation pairs tblAlias))
        | _, ColumnPathLink.leaf columnId =>
          some (PhysicalColumnPath.leaf columnId)
    | none => some parent
  | none => nextColumnPathLink.map PhysicalColumnPath.init

/-! ## Abstract predicates -/

/-- Abstract predicate over column paths; a boolean tree with literal
`tru`/`fls` leaves, a representative comparison, and combinators (mirrors
`exo_sql::AbstractPredicate`, whose source is outside the provided files). -/
inductive AbstractPredicate where
  | tru
  | fls
  | cmp (path : PhysicalColumnPath) (value : Nat)
  | conj (l r : AbstractPredicate)
  | disj (l r : AbstractPredicate)
  | neg (p : AbstractPredicate)
deriving DecidableEq

/-- Modelled from the spec: the `AbstractPredicate::and` smart constructor is
idempotent on the boolean literals: AND with True is the identity and AND with
False is False; otherwise it builds a conjunction node. -/
def AbstractPredicate.and : AbstractPredicate → AbstractPredicate → AbstractPredicate
  | AbstractPredicate.tru, b => b
  | a, AbstractPredicate.tru => a
  | AbstractPredicate.fls, _ => AbstractPredicate.fls
  | _, AbstractPredicate.fls => AbstractPredicate.fls
  | a, b => AbstractPredicate.conj a b

/-! ## Transaction engine (`transaction.rs`) -/

/-- A database row.  `tokio_postgres::Row` is opaque to the transaction
engine, so rows are abstracted as natural numbers. -/
abbrev Row := Nat

/-- A SQL operation (`exo_sql::SQLOperation`).  The operation payloads are
opaque to the retry/transaction logic, so they are abstracted as ids. -/
inductive SQLOperation where
  | select (q : Nat)
  | insert (q : Nat)
  | update (q : Nat)
  | delete (q : Nat)
deriving DecidableEq

/-- A driver-level Postgres error (`tokio_postgres::Error`): `code` is
`Some sqlstate` when `as_db_error()` yields a database error, `none` for
client-side errors. -/
structure PgError where
  code : Option String
deriving DecidableEq

/-- The `exo-sql` database error type, restricted to the variants the
embedded code constructs: a wrapped driver error with its diagnostic context
(`DatabaseError::Delegate(..).with_context(..)`), a precheck failure, and a
transaction-level failure. -/
inductive DatabaseError where
  | delegate (err : PgError) (context : String)
  | precheck (message : String)
  | transaction (message : String)
deriving DecidableEq

/-- Retry configuration (`RetryConfig`, transaction.rs lines 241-269); the
environment-variable parsing with defaults 2/50/500 is not re-modelled. -/
structure RetryConfig where
  maxRetries : Nat
  baseBackoffMs : Nat
  maxBackoffMs : Nat
deriving DecidableEq

/-- Largest `u64` value, for saturating arithmetic. -/
def U64_MAX : Nat := 2 ^ 64 - 1

/-- Embedding of `u64::saturating_mul`. -/
def saturatingMul (a b : Nat) : Nat := min (a * b) U64_MAX

/-- Embedding of `2u64.saturating_pow e`. -/
def saturatingPowTwo (e : Nat) : Nat := min (2 ^ e) U64_MAX

/-- The `capped` value computed inside `retry_backoff_ms`
(transaction.rs lines 271-278):
`base_ms.saturating_mul(2u64.saturating_pow(attempt.saturating_sub(1))).min(max_ms).max(1)`.
`Nat` subtraction is saturating, matching `saturating_sub`. -/
def cappedBackoffMs (attempt baseMs maxMs : Nat) : Nat :=
  max (min (saturatingMul baseMs (saturatingPowTwo (attempt - 1))) maxMs) 1

/-- Embedding of `retry_backoff_ms` (transaction.rs lines 271-278).  The
jitter sampled by `rand::rng().random_range(0..=capped / 2)` is passed as a
parameter; theorems constrain it to the sampled range. -/
def retryBackoffMs (attempt baseMs maxMs jitter : Nat) : Nat :=
  cappedBackoffMs attempt baseMs maxMs / 2 + jitter

/-- Embedding of `operation_is_read_only` (transaction.rs lines 280-282). -/
def operationIsReadOnly (operation : SQLOperation) : Bool :=
  match operation with
  | SQLOperation.select _ => true
  | _ => false

/-- Embedding of `is_retryable_db_error` (transaction.rs lines 284-294): the
five transient SQLSTATEs `ADMIN_SHUTDOWN` (57P01), `CRASH_SHUTDOWN` (57P02),
`CANNOT_CONNECT_NOW` (57P03), `CONNECTION_FAILURE` (08006) and
`CONNECTION_DOES_NOT_EXIST` (08003). -/
def isRetryableDbError (err : PgError) : Bool :=
  match err.code with
  | some code =>
    code == "57P01" || code == "57P02" || code == "57P03" ||
    code == "08006" || code == "08003"
  | none => false

/-- The retry loop of `run_query` (transaction.rs lines 214-238).  `attempts`
gives the driver outcome of the k-th execution of the statement; `fuel`
bounds the recursion (the caller passes `cfg.maxRetries`, which the loop
never exceeds because it stops once `attempt ≥ cfg.maxRetries`). -/
def runQueryGo (cfg : RetryConfig) (allowRetry : Bool)
    (attempts : Nat → Except PgError (List Row)) :
    Nat → Nat → Except DatabaseError (List Row)
  | attempt, fuel =>
    match attempts attempt with
    | Except.ok rows => Except.ok rows
    | Except.error err =>
      let retryable := allowRetry && isRetryableDbError err
      if retryable = false ∨ cfg.maxRetries ≤ attempt then
        Except.error (DatabaseError.delegate err "Database operation failed")
      else
        match fuel with
        | 0 => Except.error (DatabaseError.delegate err "Database operation failed")
        | fuel' + 1 => runQueryGo cfg allowRetry attempts (attempt + 1) fuel'

/-- Embedding of `run_query` (transaction.rs lines 190-239): SQL building and
logging are effect-free for the result; `allow_retry` holds only when
`max_retries > 0` and the operation is a read-only `Select`. -/
def runQuery (cfg : RetryConfig) (operation : SQLOperation)
    (attempts : Nat → Except PgError (List Row)) :
    Except DatabaseError (List Row) :=
  let allowRetry := decide (0 < cfg.maxRetries) && operationIsReadOnly operation
  runQueryGo cfg allowRetry attempts 0 cfg.maxRetries

/-- A transaction step (`TransactionStep`, transaction.rs lines 96-103).
Template, filter and dynamic steps resolve against the accumulated context;
their resolution logic reads opaque row values, so it is abstracted as a
function from the context to the concrete operation(s). -/
inductive TransactionStep where
  | concrete (operation : SQLOperation)
  | template (resolve : List (List Row) → List SQLOperation)
  | filter (resolve : List (List Row) → SQLOperation)
  | dynamic (resolve : List (List Row) → SQLOperation)
  | precheck (select : Nat)

/-- Execution of the concrete operations a template step resolved to
(transaction.rs lines 119-137): all but the last are executed for effects,
the last one's rows are returned; an empty resolution returns `Ok(vec![])`. -/
def runTemplateOps (db : SQLOperation → Except DatabaseError (List Row)) :
    List SQLOperation → Except DatabaseError (List Row)
  | [] => Except.ok []
  | [operation] => db operation
  | operation :: rest => do
    let _ ← db operation
    runTemplateOps db rest

/-- Embedding of `TransactionStep::execute` (transaction.rs lines 111-160).
`db` abstracts `run_query` on the transaction's client; `ctx` is the
transaction context of prior step results.  The `Precheck` arm executes its
select and demands exactly one row, otherwise failing with
`DatabaseError::Precheck`. -/
def stepExecute (db : SQLOperation → Except DatabaseError (List Row))
    (ctx : List (List Row)) : TransactionStep → Except DatabaseError (List Row)
  | TransactionStep.concrete operation => db operation
  | TransactionStep.template resolve => runTemplateOps db (resolve ctx)
  | TransactionStep.filter resolve => db (resolve ctx)
  | TransactionStep.dynamic resolve => db (resolve ctx)
  | TransactionStep.precheck select => do
    let precheckResult ← db (SQLOperation.select select)
    if precheckResult.length ≠ 1 then
      Except.error (DatabaseError.precheck
        ("Expected 1 row, got " ++ toString precheckResult.length))
    else
      Except.ok precheckResult

/-- The step loop of `TransactionScript::execute` (transaction.rs lines
68-74): each step executes against the context accumulated so far and its
rows are appended to the context before the next step runs. -/
def executeSteps (db : SQLOperation → Except DatabaseError (List Row)) :
    List TransactionStep → List (List Row) → Except DatabaseError (List (List Row))
  | [], ctx => Except.ok ctx
  | step :: rest, ctx => do
    let result ← stepExecute db ctx step
    executeSteps db rest (ctx ++ [result])

/-- Embedding of `TransactionScript::execute` (transaction.rs lines 63-82):
run all steps, then return the rows of the last step, or a
`DatabaseError::Transaction` error when the script has no steps. -/
def scriptExecute (db : SQLOperation → Except DatabaseError (List Row))
    (steps : List TransactionStep) : Except DatabaseError (List Row) := do
  let results ← executeSteps db steps []
  match results.getLast? with
  | some rows => Except.ok rows
  | none => Except.error (DatabaseError.transaction "")

/-- Embedding of `TransactionScript::needs_transaction` (transaction.rs
lines 91-93). -/
def needsTransaction (steps : List TransactionStep) : Bool :=
  decide (1 < steps.length)

/-! ## Resolver boundary (`abstract_operation_resolver.rs`) -/

/-- The planner/resolver error type
(`postgres_core_resolver::PostgresExecutionError`), restricted to the
variants the embedded code constructs. -/
inductive PostgresExecutionError where
  | authorization
  | postgres (err : DatabaseError)
  | nonUniqueResult (count : Nat)
  | validation (param : String) (message : String)
  | generic (message : String)
deriving DecidableEq

/-- The error mapping at the resolver boundary
(`resolve_operation`, abstract_operation_resolver.rs lines 44-57): a
`DatabaseError::Precheck` execution error surfaces as
`PostgresExecutionError::Authorization`; every other database error is
wrapped as `Postgres`. -/
def resolveDbResult (result : Except DatabaseError (List Row)) :
    Except PostgresExecutionError (List Row) :=
  match result with
  | Except.error (DatabaseError.precheck _) =>
    Except.error PostgresExecutionError.authorization
  | Except.error err => Except.error (PostgresExecutionError.postgres err)
  | Except.ok rows => Except.ok rows

/-! ## Planner data model (`postgres_query.rs` and the postgres core model) -/

/-- Relation cardinality (`postgres_core_model::relation::RelationCardinality`). -/
inductive RelationCardinality where
  | unbounded
  | optional
deriving DecidableEq

/-- Selection cardinality of a JSON aggregation
(`exo_sql::SelectionCardinality`). -/
inductive SelectionCardinality where
  | one
  | many
deriving DecidableEq

/-- Relation id (`exo_sql::RelationId`), tagged by direction and carrying the
arena index as a plain id. -/
inductive RelationId where
  | manyToOne (id : Nat)
  | oneToMany (id : Nat)
deriving DecidableEq

/-- Vector-distance function (`exo_sql::VectorDistanceFunction`); the source
default is used when a parameter declares none. -/
inductive VectorDistanceFunction where
  | cosine
  | l2
  | ip
deriving DecidableEq

/-- SQL ordering direction (`exo_sql::Ordering`). -/
inductive Ordering where
  | asc
  | desc
deriving DecidableEq

/-- Argument value (`common::value::Val`): the validated GraphQL argument
values the planner consumes.  Numbers are modelled as integers and the
`Binary` variant is omitted (no embedded code touches it). -/
inductive Val where
  | string (s : String)
  | bool (b : Bool)
  | number (n : Int)
  | enumVal (s : String)
  | list (elems : List Val)
  | object (fields : List (String × Val))
  | null

/-- A SQL parameter container (`exo_sql::SQLParamContainer`).  The planner
only ever stores an `f32` vector in it; the floating-point payload is kept
as the raw argument value, since floats are not part of the embedding. -/
structure SQLParamContainer where
  raw : Val

/-- Modelled from the spec: `to_pg_vector` (its source file `util.rs` is not
among the provided sources) coerces an argument value to a PostgreSQL vector,
rejecting non-list values with a validation error naming the parameter. -/
def toPgVector (value : Val) (paramName : String) :
    Except PostgresExecutionError SQLParamContainer :=
  match value with
  | Val.list elems => Except.ok ⟨Val.list elems⟩
  | _ => Except.error (PostgresExecutionError.validation paramName
      "Invalid vector value")

/-- A vector-distance selection function
(`exo_sql::Function::VectorDistance`). -/
structure VectorDistanceCall where
  columnId : Nat
  distanceFunction : VectorDistanceFunction
  target : SQLParamContainer

/-- A column path as used in order-by expressions (`exo_sql::ColumnPath`). -/
inductive ColumnPath where
  | physical (path : PhysicalColumnPath)
  | param (value : SQLParamContainer)
  | nullValue

/-- An order-by expression (`exo_sql::AbstractOrderByExpr`). -/
inductive AbstractOrderByExpr where
  | column (path : PhysicalColumnPath)
  | vectorDistance (column : ColumnPath) (target : ColumnPath)
      (distanceFunction : VectorDistanceFunction)

/-- An abstract order-by (`exo_sql::AbstractOrderBy`): a list of expression /
ordering pairs. -/
abbrev AbstractOrderBy := List (AbstractOrderByExpr × Ordering)

mutual
/-- A selection element (`exo_sql::SelectionElement`): the value emitted for
one aliased output field. -/
inductive SelectionElement where
  | null
  | constant (value : String)
  | physical (columnId : Nat)
  | object (fields : List (String × SelectionElement))
  | func (f : VectorDistanceCall)
  | subSelect (relationId : RelationId) (select : AbstractSelect)
  | jsonExtract (source : SelectionElement) (path : List String)
  | jsonArrayExtract (source : SelectionElement) (key : String)

/-- A selection (`exo_sql::Selection::Json`): aliased selection elements plus
the JSON-aggregation cardinality.  An aliased element is a pair of the output
alias and the element (`exo_sql::AliasedSelectionElement`). -/
inductive Selection where
  | json (elements : List (String × SelectionElement))
      (cardinality : SelectionCardinality)

/-- The abstract select plan (`exo_sql::AbstractSelect`): table id, selection,
predicate, order-by, offset, limit. -/
inductive AbstractSelect where
  | mk (tableId : Nat) (selection : Selection) (predicate : AbstractPredicate)
      (orderBy : Option AbstractOrderBy) (offset : Option Nat)
      (limit : Option Nat)
end

/-- The selection component of an abstract select. -/
def AbstractSelect.selection : AbstractSelect → Selection
  | AbstractSelect.mk _ s _ _ _ _ => s

/-- Replace the selection of an abstract select, as done by the assignment
`resolved_select.select.selection = ...` in `map_transitive_field`. -/
def AbstractSelect.withSelection : AbstractSelect → Selection → AbstractSelect
  | AbstractSelect.mk t _ p o off l, s => AbstractSelect.mk t s p o off l

/-- One step of a transitive relation
(`postgres_core_model::relation::TransitiveRelationStep`). -/
structure TransitiveRelationStep where
  relationId : RelationId
  entityId : Nat
  cardinality : RelationCardinality
  isOptional : Bool
  fieldName : String

/-- A declared input dependency of a computed field. -/
structure ComputedFieldDependency where
  fieldName : String
  columnId : Nat

/-- Relation kind of a persistent field
(`postgres_core_model::relation::PostgresRelation`), with arena indices as
plain ids. -/
inductive PostgresRelation where
  | scalar (columnId : Nat) (isPk : Bool)
  | manyToOne (foreignEntityId : Nat) (relationId : Nat)
  | oneToMany (foreignEntityId : Nat) (relationId : Nat)
      (cardinality : RelationCardinality)
  | embedded
  | computed (subsystem : String) (functionName : String) (scriptId : Nat)
      (dependencies : List ComputedFieldDependency)
  | transitive (steps : List TransitiveRelationStep)

/-- A vector-distance pseudo-field
(`postgres_core_model::vector_distance::VectorDistanceField`). -/
structure VectorDistanceField where
  columnId : Nat
  distanceFunction : VectorDistanceFunction

/-- An entity type (`postgres_core_model::types::EntityType`), restricted to
what the planner reads: name, backing table, persistent fields (by name,
carrying their relation), aggregate pseudo-fields (carrying their optional
relation) and vector-distance pseudo-fields. -/
structure EntityType where
  name : String
  tableId : Nat
  fields : List (String × PostgresRelation)
  aggregateFields : List (String × Option PostgresRelation)
  vectorDistanceFields : List (String × VectorDistanceField)

/-- Embedding of `EntityType::field_by_name`. -/
def EntityType.fieldByName (e : EntityType) (n : String) :
    Option PostgresRelation :=
  (e.fields.find? fun p => p.1 == n).map Prod.snd

/-- Embedding of `EntityType::aggregate_field_by_name`. -/
def EntityType.aggregateFieldByName (e : EntityType) (n : String) :
    Option (Option PostgresRelation) :=
  (e.aggregateFields.find? fun p => p.1 == n).map Prod.snd

/-- Embedding of `EntityType::vector_distance_field_by_name`. -/
def EntityType.vectorDistanceFieldByName (e : EntityType) (n : String) :
    Option VectorDistanceField :=
  (e.vectorDistanceFields.find? fun p => p.1 == n).map Prod.snd

/-- A validated selection field
(`core_resolver::validation::field::ValidatedField`). -/
inductive ValidatedField where
  | mk (fieldAlias : Option String) (name : String)
      (arguments : List (String × Val)) (subfields : List ValidatedField)

/-- The alias of a validated field. -/
def ValidatedField.fieldAlias : ValidatedField → Option String
  | ValidatedField.mk a _ _ _ => a

/-- The name of a validated field. -/
def ValidatedField.name : ValidatedField → String
  | ValidatedField.mk _ n _ _ => n

/-- The arguments of a validated field. -/
def ValidatedField.arguments : ValidatedField → List (String × Val)
  | ValidatedField.mk _ _ args _ => args

/-- The subfields of a validated field. -/
def ValidatedField.subfields : ValidatedField → List ValidatedField
  | ValidatedField.mk _ _ _ subs => subs

/-- Embedding of `ValidatedField::output_name`: the alias when present, else
the field name. -/
def ValidatedField.outputName (f : ValidatedField) : String :=
  f.fieldAlias.getD f.name

/-- The sub-resolvers the field mapper dispatches to.  In the source these
are `subsystem.get_pk_query(..)`, `get_collection_query(..)` and
`get_aggregate_query(..)` followed by `resolve_select`, an asynchronous
recursion through the whole planner; the embedding abstracts them as
functions from the target entity id and the validated field to the resolved
abstract select. -/
structure ResolveEnv where
  pkSelect : Nat → ValidatedField → Except PostgresExecutionError AbstractSelect
  collectionSelect :
    Nat → ValidatedField → Except PostgresExecutionError AbstractSelect
  aggregateSelect :
    Nat → ValidatedField → Except PostgresExecutionError AbstractSelect

/-- The sentinel alias `TRANSITIVE_VALUE_ALIAS` (postgres_query.rs line 387). -/
def transitiveValueAlias : String := "__transitive_value"

/-- Embedding of `selection_cardinality_for_step` (postgres_query.rs lines
501-509): `Many` only for unbounded one-to-many steps. -/
def selectionCardinalityForStep (step : TransitiveRelationStep) :
    SelectionCardinality :=
  match step.relationId with
  | RelationId.manyToOne _ => SelectionCardinality.one
  | RelationId.oneToMany _ =>
    match step.cardinality with
    | RelationCardinality.unbounded => SelectionCardinality.many
    | RelationCardinality.optional => SelectionCardinality.one

/-- Embedding of `resolve_select_for_transitive_step` (postgres_query.rs
lines 511-538): many-to-one and optional one-to-many use the unique-by-pk
query, an unbounded one-to-many uses the collection query. -/
def resolveSelectForTransitiveStep (env : ResolveEnv)
    (step : TransitiveRelationStep) (stepField : ValidatedField) :
    Except PostgresExecutionError AbstractSelect :=
  match step.relationId with
  | RelationId.manyToOne _ => env.pkSelect step.entityId stepField
  | RelationId.oneToMany _ =>
    match step.cardinality with
    | RelationCardinality.unbounded =>
      env.collectionSelect step.entityId stepField
    | RelationCardinality.optional => env.pkSelect step.entityId stepField

/-- Embedding of `build_transitive_step_fields` (postgres_query.rs lines
456-499): one synthetic validated field per step, named after the step's
field name; the bottommost keeps the leaf field's alias, arguments and
subfields, each other step wraps the next step's field as its only
subfield. -/
def buildTransitiveStepFields :
    List TransitiveRelationStep → ValidatedField → List ValidatedField
  | [], _ => []
  | [step], leafField =>
    [ValidatedField.mk leafField.fieldAlias step.fieldName leafField.arguments
      leafField.subfields]
  | step :: rest, leafField =>
    let inner := buildTransitiveStepFields rest leafField
    match inner with
    | [] => []
    | innerHead :: _ =>
      ValidatedField.mk none step.fieldName [] [innerHead] :: inner

/-- The reverse iteration of `map_transitive_field` (postgres_query.rs lines
403-447), rendered as structural recursion: the steps below the current one
are processed first (the source iterates indices in reverse, so the
bottommost step is resolved first), then the current step's resolved select
either becomes a bare sub-select (bottommost) or wraps the inner selection
under the `__transitive_value` alias and a JSON extraction. -/
def mapTransitiveGo (env : ResolveEnv) :
    List (TransitiveRelationStep × ValidatedField) →
    Except PostgresExecutionError (Option SelectionElement)
  | [] => Except.ok none
  | (step, stepField) :: rest => do
    let inner ← mapTransitiveGo env rest
    let resolved ← resolveSelectForTransitiveStep env step stepField
    match inner with
    | some innerSelection =>
      let updated := resolved.withSelection
        (Selection.json [(transitiveValueAlias, innerSelection)]
          (selectionCardinalityForStep step))
      let subSel := SelectionElement.subSelect step.relationId updated
      match step.relationId, step.cardinality with
      | RelationId.oneToMany _, RelationCardinality.unbounded =>
        Except.ok (some (SelectionElement.jsonArrayExtract subSel
          transitiveValueAlias))
      | _, _ =>
        Except.ok (some (SelectionElement.jsonExtract subSel
          [transitiveValueAlias]))
    | none =>
      Except.ok (some (SelectionElement.subSelect step.relationId resolved))

/-- Embedding of `map_transitive_field` (postgres_query.rs lines 389-454). -/
def mapTransitiveField (env : ResolveEnv)
    (steps : List TransitiveRelationStep) (field : ValidatedField) :
    Except PostgresExecutionError SelectionElement :=
  match steps with
  | [] => Except.error (PostgresExecutionError.generic
      "Validation error: Transitive relation must contain at least one step")
  | _ :: _ => do
    let stepFields := buildTransitiveStepFields steps field
    let result ← mapTransitiveGo env (steps.zip stepFields)
    match result with
    | some sel => Except.ok sel
    | none => Except.error (PostgresExecutionError.generic
        "Validation error: Failed to resolve transitive relation")

/-- Embedding of `map_vector_distance_field` (postgres_query.rs lines
583-600). -/
def mapVectorDistanceField (vdf : VectorDistanceField)
    (field : ValidatedField) : Except PostgresExecutionError SelectionElement :=
  match field.arguments.lookup "to" with
  | none => Except.error (PostgresExecutionError.generic
      "Missing 'to' argument for vector distance field")
  | some toArg => do
    let target ← toPgVector toArg "to"
    Except.ok (SelectionElement.func
      ⟨vdf.columnId, vdf.distanceFunction, target⟩)

/-- Embedding of `map_aggregate_field` (postgres_query.rs lines 540-581):
only an unbounded one-to-many relation admits an aggregate sub-select. -/
def mapAggregateField (env : ResolveEnv)
    (relation : Option PostgresRelation) (field : ValidatedField) :
    Except PostgresExecutionError SelectionElement :=
  match relation with
  | some (PostgresRelation.oneToMany foreignEntityId relationId cardinality) =>
    if cardinality = RelationCardinality.unbounded then do
      let nested ← env.aggregateSelect foreignEntityId field
      Except.ok (SelectionElement.subSelect (RelationId.oneToMany relationId)
        nested)
    else
      Except.error (PostgresExecutionError.generic
        "Validation error: Aggregate is supported only for unbounded relations")
  | _ => Except.error (PostgresExecutionError.generic
      "Validation error: Aggregate is supported only for one-to-many")

/-- Embedding of `map_persistent_field` (postgres_query.rs lines 308-385).
The `Embedded` arm panics in the source ("Embedded relations cannot be used
in queries"); the panic is modelled as a generic error. -/
def mapPersistentField (env : ResolveEnv) (relation : PostgresRelation)
    (field : ValidatedField) : Except PostgresExecutionError SelectionElement :=
  match relation with
  | PostgresRelation.scalar columnId _ =>
    Except.ok (SelectionElement.physical columnId)
  | PostgresRelation.manyToOne foreignEntityId relationId => do
    let nested ← env.pkSelect foreignEntityId field
    Except.ok (SelectionElement.subSelect (RelationId.manyToOne relationId)
      nested)
  | PostgresRelation.oneToMany foreignEntityId relationId cardinality => do
    let nested ←
      if cardinality = RelationCardinality.unbounded then
        env.collectionSelect foreignEntityId field
      else
        env.pkSelect foreignEntityId field
    Except.ok (SelectionElement.subSelect (RelationId.oneToMany relationId)
      nested)
  | PostgresRelation.computed _ _ _ dependencies =>
    if dependencies.isEmpty then
      Except.ok SelectionElement.null
    else
      Except.ok (SelectionElement.object (dependencies.map fun dep =>
        (dep.fieldName, SelectionElement.physical dep.columnId)))
  | PostgresRelation.embedded =>
    Except.error (PostgresExecutionError.generic
      "Embedded relations cannot be used in queries")
  | PostgresRelation.transitive steps => mapTransitiveField env steps field

/-- Embedding of `map_field` (postgres_query.rs lines 262-306): an output
name in the unauthorized set is masked to `Null` before any other dispatch;
then `__typename`, persistent fields, aggregate fields and vector-distance
fields are tried in order. -/
def mapField (returnType : EntityType) (env : ResolveEnv)
    (unauthorizedFields : List String) (field : ValidatedField) :
    Except PostgresExecutionError (String × SelectionElement) :=
  let outputName := field.outputName
  if unauthorizedFields.contains outputName then
    Except.ok (outputName, SelectionElement.null)
  else if field.name = "__typename" then
    Except.ok (outputName, SelectionElement.constant returnType.name)
  else
    match returnType.fieldByName field.name with
    | some entityField => do
      let elem ← mapPersistentField env entityField field
      Except.ok (outputName, elem)
    | none =>
      match returnType.aggregateFieldByName field.name with
      | some aggRelation => do
        let elem ← mapAggregateField env aggRelation field
        Except.ok (outputName, elem)
      | none =>
        match returnType.vectorDistanceFieldByName field.name with
        | some vdf => do
          let elem ← mapVectorDistanceField vdf field
          Except.ok (outputName, elem)
        | none => Except.error (PostgresExecutionError.generic
            ("Unknown field '" ++ field.name ++ "' on type '" ++
              returnType.name ++ "'"))

/-- Embedding of `content_select` (postgres_query.rs lines 237-260): map each
selection field in order, collecting the first error. -/
def contentSelect (returnType : EntityType) (env : ResolveEnv)
    (unauthorizedFields : List String) (fields : List ValidatedField) :
    Except PostgresExecutionError (List (String × SelectionElement)) :=
  fields.mapM (mapField returnType env unauthorizedFields)

/-- Return-type shape (`core_model::types::OperationReturnType`), reduced to
the constructor tags the planner's cardinality choice inspects. -/
inductive OperationReturnType where
  | plain
  | optional
  | list
deriving DecidableEq

/-- The outcome of `check_access` (`auth_util::AccessCheckOutcome`): the
precheck predicate, the entity (database) predicate, and the fields whose own
read access resolved to `False`.  `check_access` itself solves access
expressions against the request context; its file is not among the provided
sources, so the planner embedding takes the outcome as input. -/
structure AccessCheckOutcome where
  precheckPredicate : AbstractPredicate
  entityPredicate : AbstractPredicate
  unauthorizedFields : List String

/-- Embedding of `compute_select` (postgres_query.rs lines 165-217): AND the
entity predicate into the query predicate, plan the selection with the
unauthorized set masking, pick the cardinality from the return-type shape,
and assemble the abstract select. -/
def computeSelect (env : ResolveEnv) (predicate : AbstractPredicate)
    (orderBy : Option AbstractOrderBy) (limit offset : Option Nat)
    (returnShape : OperationReturnType) (returnEntityType : EntityType)
    (selection : List ValidatedField) (outcome : AccessCheckOutcome) :
    Except PostgresExecutionError AbstractSelect := do
  let predicate := AbstractPredicate.and predicate outcome.entityPredicate
  let contentObject ← contentSelect returnEntityType env
    outcome.unauthorizedFields selection
  let selectionCardinality :=
    match returnShape with
    | OperationReturnType.list => SelectionCardinality.many
    | _ => SelectionCardinality.one
  Except.ok (AbstractSelect.mk returnEntityType.tableId
    (Selection.json contentObject selectionCardinality) predicate orderBy
    offset limit)

/-- Specification-side rendering of transitive expansion, written from the
spec text of §4.2: the bottommost step uses a `SubSelect` directly; every
other step's nested select gets the selection
`Json([{alias: "__transitive_value", element: inner}], cardinality)` with
cardinality `Many` only for unbounded one-to-many steps, and the resulting
`SubSelect` is wrapped in `JsonArrayExtract{key: "__transitive_value"}` for
unbounded one-to-many steps, else in
`JsonExtract{path: ["__transitive_value"]}`. -/
def transitiveExpansionSpec :
    List (TransitiveRelationStep × AbstractSelect) → Option SelectionElement
  | [] => none
  | [(step, resolved)] =>
    some (SelectionElement.subSelect step.relationId resolved)
  | (step, resolved) :: rest =>
    (transitiveExpansionSpec rest).map fun inner =>
      let unboundedOneToMany :=
        (match step.relationId with
          | RelationId.oneToMany _ => true
          | _ => false) &&
        (step.cardinality == RelationCardinality.unbounded)
      let card := if unboundedOneToMany then SelectionCardinality.many
        else SelectionCardinality.one
      let subSel := SelectionElement.subSelect step.relationId
        (resolved.withSelection
          (Selection.json [(transitiveValueAlias, inner)] card))
      if unboundedOneToMany then
        SelectionElement.jsonArrayExtract subSel transitiveValueAlias
      else
        SelectionElement.jsonExtract subSel [transitiveValueAlias]

/-! ## Order-by mapping (`order_by_mapper.rs`) -/

/-- The result of mapping an order-by argument
(`order_by_mapper::OrderByComputation`): the order-by expressions plus the
residual predicate accumulated from field-level access checks. -/
structure OrderByComputation where
  orderBy : AbstractOrderBy
  predicate : AbstractPredicate

/-- Embedding of `OrderByComputation::combine` (order_by_mapper.rs lines
51-66): concatenate the expression lists in order and left-fold the
predicates with `AND`, starting from `True`. -/
def OrderByComputation.combine (results : List OrderByComputation) :
    OrderByComputation :=
  results.foldl
    (fun acc r =>
      ⟨acc.orderBy ++ r.orderBy, AbstractPredicate.and acc.predicate r.predicate⟩)
    ⟨[], AbstractPredicate.tru⟩

/-- Embedding of the inner `str_ordering` of `ordering`
(order_by_mapper.rs lines 254-274). -/
def strOrdering (value : String) : Except PostgresExecutionError Ordering :=
  if value = "ASC" then Except.ok Ordering.asc
  else if value = "DESC" then Except.ok Ordering.desc
  else Except.error (PostgresExecutionError.generic
    ("Cannot match " ++ value ++ " as valid ordering"))

/-- Embedding of `ordering` (order_by_mapper.rs lines 254-274): enum and
string arguments decode; anything else is rejected. -/
def ordering : Val → Except PostgresExecutionError Ordering
  | Val.enumVal value => strOrdering value
  | Val.string value => strOrdering value
  | _ => Except.error (PostgresExecutionError.generic
      "Unable to process ordering argument")

mutual
/-- The kind of an order-by parameter type
(`postgres_graphql_model::order::OrderByParameterTypeKind`).  The source
stores parameter types in an arena and parameters reference them by type id;
the embedding inlines the referenced type. -/
inductive OrderByParameterTypeKind where
  | primitive
  | vector
  | composite (parameters : List OrderByParameter)

/-- An order-by parameter (`postgres_graphql_model::order::OrderByParameter`).
The `access` component models the result of `check_retrieve_access` on the
parameter's read-access expression under the request context (the access
solver itself lives outside the provided sources): `none` when the parameter
declares no access (the source then uses `True`), `some p` for the solved
predicate. -/
inductive OrderByParameter where
  | mk (name : String) (access : Option AbstractPredicate)
      (columnPathLink : Option ColumnPathLink)
      (vectorDistanceFunction : Option VectorDistanceFunction)
      (typ : OrderByParameterTypeKind)
end

/-- The name of an order-by parameter. -/
def OrderByParameter.name : OrderByParameter → String
  | OrderByParameter.mk n _ _ _ _ => n

/-- The solved read access of an order-by parameter. -/
def OrderByParameter.access : OrderByParameter → Option AbstractPredicate
  | OrderByParameter.mk _ a _ _ _ => a

/-- The column path link of an order-by parameter. -/
def OrderByParameter.columnPathLink : OrderByParameter → Option ColumnPathLink
  | OrderByParameter.mk _ _ l _ _ => l

/-- The vector distance function of an order-by parameter. -/
def OrderByParameter.vectorDistanceFunction :
    OrderByParameter → Option VectorDistanceFunction
  | OrderByParameter.mk _ _ _ v _ => v

/-- The (inlined) parameter type of an order-by parameter. -/
def OrderByParameter.typ : OrderByParameter → OrderByParameterTypeKind
  | OrderByParameter.mk _ _ _ _ t => t

mutual
/-- Embedding of `OrderByParameterInput::to_sql` (order_by_mapper.rs lines
69-120): an object argument maps each entry through `order_by_pair` and
combines; a list argument recurses element-wise and combines; anything else
is a validation error.  The source recursion is bounded by the finite
argument value; the embedding passes explicit fuel, consumed once per nesting
level, so that the mutual recursion is structural. -/
def orderByToSql (fuel : Nat) (param : OrderByParameter)
    (parentColumnPath : Option PhysicalColumnPath) (argument : Val) :
    Except PostgresExecutionError OrderByComputation :=
  match fuel with
  | 0 => Except.error (PostgresExecutionError.generic
      "order-by recursion limit exceeded")
  | fuel + 1 =>
    match argument with
    | Val.object elems =>
      (elems.mapM fun elem =>
        orderByPair fuel param.typ elem.1 elem.2 parentColumnPath).map
        OrderByComputation.combine
    | Val.list elems =>
      (elems.mapM fun elem =>
        orderByToSql fuel param parentColumnPath elem).map
        OrderByComputation.combine
    | _ => Except.error (PostgresExecutionError.validation param.name
        "Invalid argument")

/-- Embedding of `order_by_pair` (order_by_mapper.rs lines 127-252).  The
parameter's solved read access (`check_retrieve_access`) is read off the
parameter model; `False` access fails `Authorization`; a relation parameter
additionally requires the access to be unconditionally `True`, failing
`Authorization` otherwise; then primitive parameters decode an ordering over
the extended column path, vector parameters decode `{distanceTo, order}`,
and composite parameters recurse.  The source's `unwrap()` panics are
modelled as generic errors. -/
def orderByPair (fuel : Nat) (typ : OrderByParameterTypeKind)
    (parameterName : String) (parameterValue : Val)
    (parentColumnPath : Option PhysicalColumnPath) :
    Except PostgresExecutionError OrderByComputation :=
  match fuel with
  | 0 => Except.error (PostgresExecutionError.generic
      "order-by recursion limit exceeded")
  | fuel + 1 =>
    match typ with
    | OrderByParameterTypeKind.composite parameters =>
      match parameters.find? (fun p => p.name == parameterName) with
      | some parameter =>
        let fieldAccess := parameter.access.getD AbstractPredicate.tru
        if fieldAccess = AbstractPredicate.fls then
          Except.error PostgresExecutionError.authorization
        else
          let isRelationParam :=
            match parameter.columnPathLink with
            | some (ColumnPathLink.relation _ _) => true
            | _ => false
          do
          let fieldAccessPredicate ←
            if isRelationParam then
              if fieldAccess = AbstractPredicate.tru then
                Except.ok AbstractPredicate.tru
              else
                Except.error PostgresExecutionError.authorization
            else
              Except.ok fieldAccess
          let newColumnPath :=
            toColumnPath parentColumnPath parameter.columnPathLink
          match parameter.typ with
          | OrderByParameterTypeKind.primitive =>
            match newColumnPath with
            | some path => do
              let ord ← ordering parameterValue
              Except.ok ⟨[(AbstractOrderByExpr.column path, ord)],
                fieldAccessPredicate⟩
            | none => Except.error (PostgresExecutionError.generic
                "Panic: unwrap of a missing column path")
          | OrderByParameterTypeKind.vector =>
            match parameterValue with
            | Val.object elems =>
              match newColumnPath with
              | some path =>
                match elems.lookup "distanceTo" with
                | some distanceToValue => do
                  let orderValue :=
                    (elems.lookup "order").getD (Val.string "ASC")
                  let vectorValue ← toPgVector distanceToValue parameterName
                  let ord ← ordering orderValue
                  Except.ok ⟨[(AbstractOrderByExpr.vectorDistance
                      (ColumnPath.physical path)
                      (ColumnPath.param vectorValue)
                      (parameter.vectorDistanceFunction.getD
                        VectorDistanceFunction.cosine), ord)],
                    fieldAccessPredicate⟩
                | none => Except.error (PostgresExecutionError.generic
                    "Panic: unwrap of a missing distanceTo argument")
              | none => Except.error (PostgresExecutionError.generic
                  "Panic: unwrap of a missing column path")
            | _ => Except.error (PostgresExecutionError.validation
                parameterName "Invalid vector order by parameter")
          | OrderByParameterTypeKind.composite _ => do
            let nested ←
              orderByToSql fuel parameter newColumnPath parameterValue
            Except.ok ⟨nested.orderBy,
              AbstractPredicate.and fieldAccessPredicate nested.predicate⟩
      | none => Except.error (PostgresExecutionError.validation parameterName
          "Invalid order by parameter")
    | _ => Except.error (PostgresExecutionError.validation parameterName
        "Invalid primitive or vector order by parameter")
end

/-! ## JSON values (`serde_json::Value`) -/

/-- A JSON value (`serde_json::Value`).  Numbers are modelled as integers;
the claims under verification never depend on non-integral numerics. -/
inductive JsonValue where
  | null
  | bool (b : Bool)
  | num (n : Int)
  | str (s : String)
  | arr (items : List JsonValue)
  | obj (fields : List (String × JsonValue))

/-! ## Computed-field parent snapshot (`computed_fields.rs`) -/

/-- Embedding of `serde_json::Map::entry(key).or_insert(value)`: keep an
existing entry untouched, append the new entry otherwise. -/
def jsonEntryOrInsert (m : List (String × JsonValue)) (key : String)
    (value : JsonValue) : List (String × JsonValue) :=
  if (m.lookup key).isSome then m else m ++ [(key, value)]

/-- Embedding of the parent-snapshot construction in `process_entity`
(computed_fields.rs lines 224-235): clone the row object and, when the
computed field's placeholder (the row value under the field's output name)
is an object, promote each of its dependency keys to a sibling key of the
parent via `entry(..).or_insert(..)`. -/
def buildParentSnapshot (obj : List (String × JsonValue))
    (outputName : String) : List (String × JsonValue) :=
  match obj.lookup outputName with
  | some (JsonValue.obj dependencyValues) =>
    dependencyValues.foldl (fun m kv => jsonEntryOrInsert m kv.1 kv.2) obj
  | _ => obj

/-! ## Operation validator: variable coercion (`operation_validator.rs`) -/

mutual
/-- A GraphQL type reference (`async_graphql_parser::types::Type`): a base
type plus nullability. -/
inductive GqlType where
  | mk (base : GqlBaseType) (nullable : Bool)

/-- The base of a GraphQL type reference
(`async_graphql_parser::types::BaseType`): a named type or a list type. -/
inductive GqlBaseType where
  | named (name : String)
  | list (elem : GqlType)
end

/-- The base of a GraphQL type reference. -/
def GqlType.base : GqlType → GqlBaseType
  | GqlType.mk b _ => b

/-- The nullability flag of a GraphQL type reference. -/
def GqlType.nullable : GqlType → Bool
  | GqlType.mk _ n => n

/-- A schema type definition kind
(`async_graphql_parser::types::TypeKind`), restricted to what variable
coercion inspects: enums (their declared value names), input objects (their
field names and types), and everything else. -/
inductive TypeKind where
  | enumDef (values : List String)
  | inputObjectDef (fields : List (String × GqlType))
  | otherDef

/-- A typed constant value (`async_graphql_value::ConstValue`), restricted to
the variants variable coercion produces. -/
inductive ConstValue where
  | null
  | boolean (b : Bool)
  | number (n : Int)
  | str (s : String)
  | enumValue (s : String)
  | list (items : List ConstValue)
  | object (fields : List (String × ConstValue))

mutual
/-- Embedding of `ConstValue::from_json` (the `async-graphql-value` library
conversion the validator falls back to): the structural, total translation of
a JSON value into a constant value. -/
def constValueFromJson : JsonValue → ConstValue
  | JsonValue.null => ConstValue.null
  | JsonValue.bool b => ConstValue.boolean b
  | JsonValue.num n => ConstValue.number n
  | JsonValue.str s => ConstValue.str s
  | JsonValue.arr items => ConstValue.list (constValueFromJsonList items)
  | JsonValue.obj fields => ConstValue.object (constValueFromJsonFields fields)

/-- Element-wise `ConstValue::from_json` over an array. -/
def constValueFromJsonList : List JsonValue → List ConstValue
  | [] => []
  | v :: rest => constValueFromJson v :: constValueFromJsonList rest

/-- Field-wise `ConstValue::from_json` over an object. -/
def constValueFromJsonFields :
    List (String × JsonValue) → List (String × ConstValue)
  | [] => []
  | (k, v) :: rest => (k, constValueFromJson v) :: constValueFromJsonFields rest
end

/-- Validation errors (`core_resolver::validation::ValidationError`),
restricted to the variants the embedded code constructs. -/
inductive ValidationError where
  | variableNotFound (name : String)
  | malformedVariable (name : String) (message : String)
  | operationNotFound (name : String)
  | selectionSetTooDeep
deriving DecidableEq

mutual
/-- Embedding of `coerce_variable_value` (operation_validator.rs lines
195-311): a list type coerces an array element-wise against the element type
and falls back to the plain JSON conversion for any non-array value; a named
type that resolves to an enum matches strings against the declared values
(`null` maps to `Null`, anything else is `MalformedVariable`); a named type
that resolves to an input object coerces object fields against their declared
types, passing unknown keys through the JSON conversion (`null` maps to
`Null`, anything else is `MalformedVariable`); every other named type uses
the plain JSON conversion.  (The source's error messages additionally render
the offending value; the embedding keeps the leading text.) -/
def coerceVariableValue (schema : List (String × TypeKind))
    (expectedType : GqlType) (value : JsonValue) (variableName : String) :
    Except ValidationError ConstValue :=
  match expectedType.base with
  | GqlBaseType.list elemType =>
    match value with
    | JsonValue.arr values =>
      (coerceListValues schema elemType values variableName).map
        ConstValue.list
    | _ => Except.ok (constValueFromJson value)
  | GqlBaseType.named typeName =>
    match schema.lookup typeName with
    | some (TypeKind.enumDef enumValues) =>
      match value with
      | JsonValue.str enumValue =>
        if enumValues.any (fun v => v == enumValue) then
          Except.ok (ConstValue.enumValue enumValue)
        else
          Except.error (ValidationError.malformedVariable variableName
            ("Invalid enum value '" ++ enumValue ++ "' for type '" ++
              typeName ++ "'"))
      | JsonValue.null => Except.ok ConstValue.null
      | _ => Except.error (ValidationError.malformedVariable variableName
          ("Expected enum value for type '" ++ typeName ++ "'"))
    | some (TypeKind.inputObjectDef inputFields) =>
      match value with
      | JsonValue.obj values =>
        (coerceObjectFields schema inputFields values variableName).map
          ConstValue.object
      | JsonValue.null => Except.ok ConstValue.null
      | _ => Except.error (ValidationError.malformedVariable variableName
          ("Expected input object for type '" ++ typeName ++ "'"))
    | _ => Except.ok (constValueFromJson value)

/-- The element-wise list coercion inside `coerce_variable_value`. -/
def coerceListValues (schema : List (String × TypeKind)) (elemType : GqlType)
    (values : List JsonValue) (variableName : String) :
    Except ValidationError (List ConstValue) :=
  match values with
  | [] => Except.ok []
  | v :: rest => do
    let cv ← coerceVariableValue schema elemType v variableName
    let cvs ← coerceListValues schema elemType rest variableName
    Except.ok (cv :: cvs)

/-- The field-wise input-object coercion inside `coerce_variable_value`:
declared fields coerce recursively against their declared type, unknown
fields pass through the JSON conversion. -/
def coerceObjectFields (schema : List (String × TypeKind))
    (inputFields : List (String × GqlType))
    (values : List (String × JsonValue)) (variableName : String) :
    Except ValidationError (List (String × ConstValue)) :=
  match values with
  | [] => Except.ok []
  | (k, v) :: rest => do
    let cv ←
      match inputFields.find? (fun fieldDef => fieldDef.1 == k) with
      | some fieldDef => coerceVariableValue schema fieldDef.2 v variableName
      | none => Except.ok (constValueFromJson v)
    let cvs ← coerceObjectFields schema inputFields rest variableName
    Except.ok ((k, cv) :: cvs)
end

/-! ## Shared lemmas -/

/-- Bind on `Except` of a success reduces to the continuation. -/
theorem exceptOkBind {α β ε : Type} (a : α) (f : α → Except ε β) :
    (do
      let x ← Except.ok a
      f x) = f a := rfl

/-- Bind on `Except` of a failure propagates the failure. -/
theorem exceptErrorBind {α β ε : Type} (e : ε) (f : α → Except ε β) :
    (do
      let x ← Except.error e
      f x) = Except.error e := rfl


/-- Saturating u64 arithmetic computes the same capped exponential as exact
arithmetic, as long as the cap `maxMs` is a representable u64 value. -/
theorem saturating_capped_eq (k baseMs maxMs : Nat) (hmax : maxMs ≤ U64_MAX) :
    min (saturatingMul baseMs (saturatingPowTwo (k - 1))) maxMs =
      min (baseMs * 2 ^ (k - 1)) maxMs := by
  unfold saturatingMul saturatingPowTwo
  by_cases hp : 2 ^ (k - 1) ≤ U64_MAX
  · rw [min_eq_left hp]
    generalize baseMs * 2 ^ (k - 1) = t
    omega
  · push_neg at hp
    rw [min_eq_right hp.le]
    by_cases hb : baseMs = 0
    · subst hb; simp
    · have hb1 : 0 < baseMs := Nat.pos_of_ne_zero hb
      have h1 : U64_MAX ≤ baseMs * U64_MAX := Nat.le_mul_of_pos_left _ hb1
      have h2 : 2 ^ (k - 1) ≤ baseMs * 2 ^ (k - 1) := Nat.le_mul_of_pos_left _ hb1
      generalize hX : baseMs * U64_MAX = X at *
      generalize hY : baseMs * 2 ^ (k - 1) = Y at *
      omega

/-! ## Claim theorems -/

/-- C5: for every retry attempt `k ≥ 1` and configured base and max backoff
values (u64), the computed sleep duration lies in `[capped / 2, capped]`
milliseconds, where `capped = min (base * 2 ^ (k - 1)) max`. -/
theorem retry_backoff_bounded (k baseMs maxMs jitter : Nat) (hk : 1 ≤ k)
    (hbase : baseMs ≤ U64_MAX) (hmax : maxMs ≤ U64_MAX)
    (hjitter : jitter ≤ cappedBackoffMs k baseMs maxMs / 2) :
    min (baseMs * 2 ^ (k - 1)) maxMs / 2 ≤ retryBackoffMs k baseMs maxMs jitter ∧
      retryBackoffMs k baseMs maxMs jitter ≤ min (baseMs * 2 ^ (k - 1)) maxMs := by
  have hcap := saturating_capped_eq k baseMs maxMs hmax
  unfold retryBackoffMs cappedBackoffMs at *
  rw [hcap] at hjitter ⊢
  by_cases h0 : min (baseMs * 2 ^ (k - 1)) maxMs = 0
  · rw [h0] at hjitter ⊢
    simp at hjitter ⊢
    omega
  · have h1 : 1 ≤ min (baseMs * 2 ^ (k - 1)) maxMs := Nat.one_le_iff_ne_zero.mpr h0
    rw [Nat.max_eq_left h1] at hjitter ⊢
    have hdd : min (baseMs * 2 ^ (k - 1)) maxMs / 2 * 2 ≤
        min (baseMs * 2 ^ (k - 1)) maxMs := Nat.div_mul_le_self _ _
    omega

/-- Witness for C5 at the spec's literal scenario: attempt 2 with base 50 and
max 500 gives `capped = 100`, and jitter 25 yields a sleep of 75 within
`[50, 100]`. -/
theorem retry_backoff_bounded_witness :
    min (50 * 2 ^ (2 - 1)) 500 / 2 ≤ retryBackoffMs 2 50 500 25 ∧
      retryBackoffMs 2 50 500 25 ≤ min (50 * 2 ^ (2 - 1)) 500 :=
  retry_backoff_bounded 2 50 500 25 (by decide) (by decide) (by decide) (by decide)

/-- C6: within a transaction step, a query is re-attempted only when the
operation is a read-only `Select` and the driver error carries one of the
five transient SQLSTATEs (57P01, 57P02, 57P03, 08006, 08003); a non-select
operation surfaces its first failure immediately, as does a select whose
error is not retryable; a select with a retryable failure and retry budget
left is re-attempted against the next driver outcome. -/
theorem run_query_retry_policy :
    (∀ err : PgError, isRetryableDbError err = true ↔
      ∃ code, err.code = some code ∧
        (code = "57P01" ∨ code = "57P02" ∨ code = "57P03" ∨
          code = "08006" ∨ code = "08003"))
  ∧ (∀ (cfg : RetryConfig) (op : SQLOperation)
      (attempts : Nat → Except PgError (List Row)) (err : PgError),
      operationIsReadOnly op = false →
      attempts 0 = Except.error err →
      runQuery cfg op attempts =
        Except.error (DatabaseError.delegate err "Database operation failed"))
  ∧ (∀ (cfg : RetryConfig) (op : SQLOperation)
      (attempts : Nat → Except PgError (List Row)) (err : PgError),
      attempts 0 = Except.error err →
      isRetryableDbError err = false →
      runQuery cfg op attempts =
        Except.error (DatabaseError.delegate err "Database operation failed"))
  ∧ (∀ (cfg : RetryConfig) (op : SQLOperation)
      (attempts : Nat → Except PgError (List Row)) (err : PgError)
      (rows : List Row),
      operationIsReadOnly op = true →
      1 ≤ cfg.maxRetries →
      attempts 0 = Except.error err →
      isRetryableDbError err = true →
      attempts 1 = Except.ok rows →
      runQuery cfg op attempts = Except.ok rows) := by
  refine ⟨?_, ?_, ?_, ?_⟩
  · intro err
    obtain ⟨code⟩ := err
    cases code with
    | none => simp [isRetryableDbError]
    | some c =>
      simp only [isRetryableDbError, Bool.or_eq_true, beq_iff_eq,
        Option.some.injEq]
      constructor
      · intro h
        exact ⟨c, rfl, by tauto⟩
      · rintro ⟨c', hc, h⟩
        subst hc
        tauto
  · intro cfg op attempts err hro h0
    unfold runQuery runQueryGo
    rw [h0, hro]
    simp
  · intro cfg op attempts err h0 hnr
    unfold runQuery runQueryGo
    rw [h0]
    simp [hnr]
  · intro cfg op attempts err rows hro hmax h0 hr h1
    obtain ⟨m, hm⟩ : ∃ m, cfg.maxRetries = m + 1 := ⟨cfg.maxRetries - 1, by omega⟩
    have hdec : decide (0 < m + 1) = true := by simp
    unfold runQuery
    rw [hm]
    unfold runQueryGo
    rw [h0]
    simp only [hdec, hro, hr, Bool.and_true, Bool.true_and, Bool.and_self]
    rw [if_neg (by simp [hm] : ¬(true = false ∨ cfg.maxRetries ≤ 0))]
    simp [runQueryGo, h1]

/-- Witness for C6: a select whose first attempt fails with SQLSTATE 57P03
(`cannot_connect_now`) under `max_retries = 2` succeeds on the retry. -/
theorem run_query_retry_policy_witness :
    runQuery ⟨2, 50, 500⟩ (SQLOperation.select 0)
      (fun n => if n = 0 then Except.error ⟨some "57P03"⟩ else Except.ok [7]) =
      Except.ok [7] :=
  run_query_retry_policy.2.2.2 ⟨2, 50, 500⟩ (SQLOperation.select 0)
    (fun n => if n = 0 then Except.error ⟨some "57P03"⟩ else Except.ok [7])
    ⟨some "57P03"⟩ [7] rfl (by decide) rfl (by decide) rfl

/-- C2: a `Precheck` transaction step executes its select and fails with a
`Precheck` error exactly when the select returns a number of rows different
from one (the single row is returned otherwise), and a `Precheck` database
error is mapped to `Authorization` at the resolver boundary.  The hypothesis
`hdb` records that the underlying `run_query` only raises delegate-wrapped
driver errors, never a `Precheck` error of its own. -/
theorem precheck_step_semantics (db : SQLOperation → Except DatabaseError (List Row))
    (ctx : List (List Row)) (sel : Nat)
    (hdb : ∀ err, db (SQLOperation.select sel) = Except.error err →
      ∀ m, err ≠ DatabaseError.precheck m) :
    (∀ rows, db (SQLOperation.select sel) = Except.ok rows → rows.length = 1 →
      stepExecute db ctx (TransactionStep.precheck sel) = Except.ok rows)
  ∧ (∀ rows, db (SQLOperation.select sel) = Except.ok rows → rows.length ≠ 1 →
      stepExecute db ctx (TransactionStep.precheck sel) =
        Except.error (DatabaseError.precheck
          ("Expected 1 row, got " ++ toString rows.length)))
  ∧ ((∃ m, stepExecute db ctx (TransactionStep.precheck sel) =
        Except.error (DatabaseError.precheck m)) ↔
      ∃ rows, db (SQLOperation.select sel) = Except.ok rows ∧ rows.length ≠ 1)
  ∧ (∀ m, resolveDbResult (Except.error (DatabaseError.precheck m)) =
      Except.error PostgresExecutionError.authorization) := by
  refine ⟨?_, ?_, ?_, fun m => rfl⟩
  · intro rows hres hlen
    simp only [stepExecute]
    rw [hres, exceptOkBind]
    simp [hlen]
  · intro rows hres hlen
    simp only [stepExecute]
    rw [hres, exceptOkBind]
    simp [hlen]
  · constructor
    · rintro ⟨m, hm⟩
      simp only [stepExecute] at hm
      cases hres : db (SQLOperation.select sel) with
      | ok rows =>
        rw [hres, exceptOkBind] at hm
        by_cases hlen : rows.length = 1
        · simp [hlen] at hm
        · exact ⟨rows, rfl, hlen⟩
      | error err =>
        rw [hres, exceptErrorBind] at hm
        simp only [Except.error.injEq] at hm
        exact absurd hm (hdb err hres m)
    · rintro ⟨rows, hres, hlen⟩
      refine ⟨"Expected 1 row, got " ++ toString rows.length, ?_⟩
      simp only [stepExecute]
      rw [hres, exceptOkBind]
      simp [hlen]

/-- Witness for C2: a precheck select returning two rows fails with a
`Precheck` error naming the row count. -/
theorem precheck_step_semantics_witness :
    stepExecute (fun _ => Except.ok [1, 2]) [] (TransactionStep.precheck 0) =
      Except.error (DatabaseError.precheck "Expected 1 row, got 2") :=
  (precheck_step_semantics (fun _ => Except.ok [1, 2]) [] 0
    (by intro err h m; simp at h)).2.1 [1, 2] rfl (by decide)

/-- C9: executing a `TransactionScript` with zero steps returns a
`Transaction` error; a non-empty script runs its steps in insertion order,
each step seeing exactly the rows of the steps before it, and returns the
rows of the last step. -/
theorem transaction_script_execution
    (db : SQLOperation → Except DatabaseError (List Row)) :
    scriptExecute db [] = Except.error (DatabaseError.transaction "")
  ∧ ∀ (steps : List TransactionStep) (results : List (List Row)),
      executeSteps db steps [] = Except.ok results →
      results.length = steps.length ∧
      (∀ i (hi : i < steps.length),
        stepExecute db (results.take i) (steps.get ⟨i, hi⟩) =
          Except.ok (results.getD i [])) ∧
      (steps ≠ [] → ∃ rows, results.getLast? = some rows ∧
        scriptExecute db steps = Except.ok rows) := by
  have general : ∀ (steps : List TransactionStep) (ctx out : List (List Row)),
      executeSteps db steps ctx = Except.ok out →
      out.length = ctx.length + steps.length ∧
      (∃ added, out = ctx ++ added) ∧
      ∀ i (hi : i < steps.length),
        stepExecute db (out.take (ctx.length + i)) (steps.get ⟨i, hi⟩) =
          Except.ok (out.getD (ctx.length + i) []) := by
    intro steps
    induction steps with
    | nil =>
      intro ctx out h
      unfold executeSteps at h
      simp at h
      subst h
      exact ⟨by simp, ⟨[], by simp⟩, fun i hi => absurd hi (by simp)⟩
    | cons step rest ih =>
      intro ctx out h
      unfold executeSteps at h
      cases hstep : stepExecute db ctx step with
      | error e => rw [hstep, exceptErrorBind] at h; exact absurd h (by simp)
      | ok r =>
        rw [hstep, exceptOkBind] at h
        obtain ⟨hlen, ⟨added, hadd⟩, hix⟩ := ih (ctx ++ [r]) out h
        have hpre : out = ctx ++ ([r] ++ added) := by
          rw [hadd, List.append_assoc]
        refine ⟨by simp [hlen]; omega, ⟨[r] ++ added, hpre⟩, ?_⟩
        intro i hi
        match i with
        | 0 =>
          have htake : out.take (ctx.length + 0) = ctx := by
            rw [hpre, Nat.add_zero, List.take_left]
          have hget : out.getD (ctx.length + 0) [] = r := by
            rw [hpre, Nat.add_zero]
            simp only [List.getD_eq_getElem?_getD]
            rw [List.getElem?_append_right (Nat.le_refl ctx.length)]
            simp
          rw [htake, hget]
          exact hstep
        | j + 1 =>
          have := hix j (by simpa using hi)
          simpa [Nat.add_comm, Nat.add_assoc, Nat.add_left_comm] using this
  constructor
  · rfl
  · intro steps results h
    obtain ⟨hlen, ⟨added, hadd⟩, hix⟩ := general steps [] results h
    simp at hlen
    refine ⟨hlen, ?_, ?_⟩
    · intro i hi
      simpa using hix i hi
    · intro hne
      have hrne : results ≠ [] := by
        intro hnil
        rw [hnil] at hlen
        exact hne (List.length_eq_zero.mp hlen.symm)
      obtain ⟨rows, hrows⟩ :=
        Option.isSome_iff_exists.mp (List.getLast?_isSome.mpr hrne)
      refine ⟨rows, hrows, ?_⟩
      unfold scriptExecute
      rw [h, exceptOkBind, hrows]

/-- Witness for C9: a two-step script returns the second step's rows, with
each step seeing the results of the steps before it. -/
theorem transaction_script_execution_witness :
    scriptExecute
      (fun op => match op with
        | SQLOperation.select _ => Except.ok [5]
        | _ => Except.ok [6])
      [TransactionStep.concrete (SQLOperation.select 0),
        TransactionStep.concrete (SQLOperation.insert 1)] = Except.ok [6] := by
  obtain ⟨rows, h1, h2⟩ :=
    ((transaction_script_execution
      (fun op => match op with
        | SQLOperation.select _ => Except.ok [5]
        | _ => Except.ok [6])).2
      [TransactionStep.concrete (SQLOperation.select 0),
        TransactionStep.concrete (SQLOperation.insert 1)]
      [[5], [6]] rfl).2.2 (by simp)
  have hr : rows = [6] := by simpa using h1.symm
  rw [hr] at h2
  exact h2

/-- Pushing a link makes it the last link of the path. -/
theorem PhysicalColumnPath.lastLink_push (p : PhysicalColumnPath)
    (link : ColumnPathLink) : (p.push link).lastLink = link := by
  unfold PhysicalColumnPath.lastLink PhysicalColumnPath.push
  simp

/-- C8: column-path composition: extending by `none` is the identity; when
the parent path ends in a leaf and the next link is a relation, the leaf is
dropped and the relation appended (preserving well-formedness, so the result
never contains a leaf followed by another link); when the next link is a
leaf, the resulting path ends in that leaf. -/
theorem to_column_path_composition :
    (∀ p : Option PhysicalColumnPath, toColumnPath p none = p)
  ∧ (∀ (path : PhysicalColumnPath) (pairs : List (Nat × Nat))
      (tblAlias : Option String) (c : Nat),
      path.lastLink = ColumnPathLink.leaf c →
      toColumnPath (some path) (some (ColumnPathLink.relation pairs tblAlias)) =
        some ⟨path.val.dropLast ++ [ColumnPathLink.relation pairs tblAlias],
          by simp⟩ ∧
      (linksWellFormed path.val = true →
        linksWellFormed
          (path.val.dropLast ++ [ColumnPathLink.relation pairs tblAlias]) = true))
  ∧ (∀ (p : Option PhysicalColumnPath) (c : Nat),
      ∃ q, toColumnPath p (some (ColumnPathLink.leaf c)) = some q ∧
        q.lastLink = ColumnPathLink.leaf c) := by
  refine ⟨?_, ?_, ?_⟩
  · intro p
    cases p <;> rfl
  · intro path pairs tblAlias c hlast
    constructor
    · simp only [toColumnPath, hlast, PhysicalColumnPath.withoutLast]
      by_cases hdrop : path.val.dropLast = []
      · rw [dif_pos hdrop]
        simp only [hdrop, List.nil_append]
        rfl
      · rw [dif_neg hdrop]
        rfl
    · intro hwf
      simpa [linksWellFormed, List.dropLast_concat] using hwf
  · intro p c
    cases p with
    | none => exact ⟨PhysicalColumnPath.init (ColumnPathLink.leaf c), rfl, rfl⟩
    | some path =>
      cases hlast : path.lastLink with
      | leaf c' =>
        by_cases hdrop : path.val.dropLast = []
        · refine ⟨PhysicalColumnPath.leaf c, ?_, rfl⟩
          simp only [toColumnPath, hlast, PhysicalColumnPath.withoutLast]
          rw [dif_pos hdrop]
        · refine ⟨PhysicalColumnPath.push ⟨path.val.dropLast, hdrop⟩
            (ColumnPathLink.leaf c), ?_, PhysicalColumnPath.lastLink_push _ _⟩
          simp only [toColumnPath, hlast, PhysicalColumnPath.withoutLast]
          rw [dif_neg hdrop]
      | relation pairs tblAlias =>
        refine ⟨path.push (ColumnPathLink.leaf c), ?_,
          PhysicalColumnPath.lastLink_push _ _⟩
        simp only [toColumnPath, hlast]

/-- Witness for C8: composing `a → (leaf b)` with a relation link drops the
trailing leaf and appends the relation. -/
theorem to_column_path_composition_witness :
    toColumnPath
      (some ⟨[ColumnPathLink.relation [(0, 1)] none, ColumnPathLink.leaf 2],
        by simp⟩)
      (some (ColumnPathLink.relation [(1, 3)] none)) =
      some ⟨[ColumnPathLink.relation [(0, 1)] none,
        ColumnPathLink.relation [(1, 3)] none], by simp⟩ :=
  (to_column_path_composition.2.1
    ⟨[ColumnPathLink.relation [(0, 1)] none, ColumnPathLink.leaf 2], by simp⟩
    [(1, 3)] none 2 rfl).1

/-- Association-list lookup distributes over append, preferring the left
list. -/
theorem lookup_append {β : Type} (k : String) (l₁ l₂ : List (String × β)) :
    List.lookup k (l₁ ++ l₂) = (List.lookup k l₁ <|> List.lookup k l₂) := by
  induction l₁ with
  | nil => simp [List.lookup]
  | cons kv rest ih =>
    obtain ⟨k1, v1⟩ := kv
    by_cases hk : k = k1
    · simp [List.lookup, hk]
    · simp [List.lookup, beq_false_of_ne hk, ih]

/-- Folding `entry(..).or_insert(..)` over dependency values gives
left-biased lookup: the base object wins, dependencies fill the gaps. -/
theorem lookup_foldl_orInsert (deps : List (String × JsonValue)) :
    ∀ (obj : List (String × JsonValue)) (k : String),
      List.lookup k (deps.foldl (fun m kv => jsonEntryOrInsert m kv.1 kv.2) obj) =
        (List.lookup k obj <|> List.lookup k deps) := by
  induction deps with
  | nil => intro obj k; simp
  | cons kv rest ih =>
    obtain ⟨k1, v1⟩ := kv
    intro obj k
    simp only [List.foldl_cons, ih]
    unfold jsonEntryOrInsert
    by_cases hpresent : (obj.lookup k1).isSome
    · rw [if_pos hpresent]
      by_cases hk : k = k1
      · subst hk
        obtain ⟨v, hv⟩ := Option.isSome_iff_exists.mp hpresent
        simp [List.lookup, hv]
      · simp [List.lookup, beq_false_of_ne hk]
    · rw [if_neg hpresent]
      rw [lookup_append]
      by_cases hk : k = k1
      · subst hk
        have hnone : obj.lookup k = none := Option.not_isSome_iff_eq_none.mp hpresent
        simp [List.lookup, hnone]
      · simp [List.lookup, beq_false_of_ne hk]

/-- C10: the computed-field parent snapshot inserts a dependency key from the
placeholder object only when that key is absent from the parent row (lookup
is left-biased towards the row object), keeps the value of any key already
present, leaves every key that is not a dependency unchanged, and leaves the
row untouched entirely when the placeholder is not an object. -/
theorem parent_snapshot_promotion :
    (∀ (obj deps : List (String × JsonValue)) (outputName k : String),
      List.lookup outputName obj = some (JsonValue.obj deps) →
      List.lookup k (buildParentSnapshot obj outputName) =
        (List.lookup k obj <|> List.lookup k deps))
  ∧ (∀ (obj : List (String × JsonValue)) (outputName : String),
      (∀ deps, List.lookup outputName obj ≠ some (JsonValue.obj deps)) →
      buildParentSnapshot obj outputName = obj) := by
  constructor
  · intro obj deps outputName k h
    unfold buildParentSnapshot
    rw [h]
    exact lookup_foldl_orInsert deps obj k
  · intro obj outputName h
    unfold buildParentSnapshot
    cases hl : obj.lookup outputName with
    | none => rfl
    | some v =>
      cases v with
      | obj deps => exact absurd hl (h deps)
      | null => rfl
      | bool b => rfl
      | num n => rfl
      | str s => rfl
      | arr items => rfl

/-- Witness for C10, matching the spec's computed-field scenario: a row
`{price: 100, tax: {price: 100, discount: 5}}` whose `tax` placeholder holds
dependencies promotes `discount` while keeping the existing `price`. -/
theorem parent_snapshot_promotion_witness :
    List.lookup "discount"
      (buildParentSnapshot
        [("price", JsonValue.num 100),
          ("tax", JsonValue.obj
            [("price", JsonValue.num 200), ("discount", JsonValue.num 5)])]
        "tax") =
      (List.lookup "discount"
        [("price", JsonValue.num 100),
          ("tax", JsonValue.obj
            [("price", JsonValue.num 200), ("discount", JsonValue.num 5)])] <|>
        List.lookup "discount"
          [("price", JsonValue.num 200), ("discount", JsonValue.num 5)]) :=
  parent_snapshot_promotion.1
    [("price", JsonValue.num 100),
      ("tax", JsonValue.obj
        [("price", JsonValue.num 200), ("discount", JsonValue.num 5)])]
    [("price", JsonValue.num 200), ("discount", JsonValue.num 5)]
    "tax" "discount" rfl

/-- Masked planning of a selection: whenever every non-masked field maps
successfully, the whole selection maps successfully, with masked positions
holding `Null`. -/
theorem contentSelect_masked (returnType : EntityType) (env : ResolveEnv)
    (unauth : List String) :
    ∀ fields : List ValidatedField,
      (∀ f ∈ fields, unauth.contains f.outputName = false →
        ∃ e, mapField returnType env unauth f = Except.ok e) →
      ∃ elems, contentSelect returnType env unauth fields = Except.ok elems ∧
        elems.length = fields.length ∧
        ∀ i (hi : i < fields.length) (hi' : i < elems.length),
          unauth.contains (fields.get ⟨i, hi⟩).outputName = true →
          elems.get ⟨i, hi'⟩ =
            ((fields.get ⟨i, hi⟩).outputName, SelectionElement.null) := by
  intro fields
  induction fields with
  | nil =>
    intro _
    refine ⟨[], ?_, rfl, fun i hi => absurd hi (by simp)⟩
    rw [contentSelect, List.mapM_nil]
    rfl
  | cons f rest ih =>
    intro hyp
    have hf : ∃ e, mapField returnType env unauth f = Except.ok e := by
      by_cases hc : unauth.contains f.outputName = true
      · refine ⟨(f.outputName, SelectionElement.null), ?_⟩
        simp only [mapField]
        rw [if_pos hc]
      · exact hyp f (by simp) (by simpa using hc)
    obtain ⟨e, he⟩ := hf
    obtain ⟨elems, hel, hlen, hidx⟩ :=
      ih (fun g hg hgc => hyp g (by simp [hg]) hgc)
    rw [contentSelect] at hel
    refine ⟨e :: elems, ?_, by simp [hlen], ?_⟩
    · rw [contentSelect, List.mapM_cons, he, exceptOkBind, hel, exceptOkBind]
      rfl
    · intro i hi hi' hmask
      match i with
      | 0 =>
        have hmf : mapField returnType env unauth f =
            Except.ok (f.outputName, SelectionElement.null) := by
          simp only [List.get] at hmask
          simp only [mapField]
          rw [if_pos hmask]
        rw [he] at hmf
        simp only [Except.ok.injEq] at hmf
        simpa [List.get] using hmf
      | j + 1 =>
        exact hidx j (by simpa using hi) (by simpa using hi') hmask

/-- C1: every selection field whose output name is in the unauthorized set is
planned as the SQL `Null` element, before and regardless of any relation-kind
dispatch; and as long as each non-masked field plans successfully, the whole
`compute_select` succeeds with the masked elements in place. -/
theorem unauthorized_fields_masked (returnType : EntityType) (env : ResolveEnv)
    (unauth : List String) :
    (∀ field : ValidatedField, unauth.contains field.outputName = true →
      mapField returnType env unauth field =
        Except.ok (field.outputName, SelectionElement.null))
  ∧ ∀ (predicate : AbstractPredicate) (orderBy : Option AbstractOrderBy)
      (limit offset : Option Nat) (returnShape : OperationReturnType)
      (precheckPred entityPred : AbstractPredicate)
      (fields : List ValidatedField),
      (∀ f ∈ fields, unauth.contains f.outputName = false →
        ∃ e, mapField returnType env unauth f = Except.ok e) →
      ∃ elems,
        contentSelect returnType env unauth fields = Except.ok elems ∧
        elems.length = fields.length ∧
        (∀ i (hi : i < fields.length) (hi' : i < elems.length),
          unauth.contains (fields.get ⟨i, hi⟩).outputName = true →
          elems.get ⟨i, hi'⟩ =
            ((fields.get ⟨i, hi⟩).outputName, SelectionElement.null)) ∧
        computeSelect env predicate orderBy limit offset returnShape
            returnType fields ⟨precheckPred, entityPred, unauth⟩ =
          Except.ok (AbstractSelect.mk returnType.tableId
            (Selection.json elems
              (match returnShape with
                | OperationReturnType.list => SelectionCardinality.many
                | _ => SelectionCardinality.one))
            (AbstractPredicate.and predicate entityPred) orderBy offset
            limit) := by
  constructor
  · intro field h
    simp only [mapField]
    rw [if_pos h]
  · intro predicate orderBy limit offset returnShape precheckPred entityPred
      fields hyp
    obtain ⟨elems, hel, hlen, hidx⟩ :=
      contentSelect_masked returnType env unauth fields hyp
    refine ⟨elems, hel, hlen, hidx, ?_⟩
    cases returnShape <;> rw [computeSelect, hel, exceptOkBind] <;> simp

/-- Witness for C1, matching the spec's masking scenario: with `ssn` in the
unauthorized set, the selection `id, name, ssn` plans with `ssn` as `Null`. -/
theorem unauthorized_fields_masked_witness :
    mapField
      ⟨"User", 0, [("id", PostgresRelation.scalar 0 true),
        ("name", PostgresRelation.scalar 1 false),
        ("ssn", PostgresRelation.scalar 2 false)], [], []⟩
      ⟨fun _ _ => Except.error PostgresExecutionError.authorization,
        fun _ _ => Except.error PostgresExecutionError.authorization,
        fun _ _ => Except.error PostgresExecutionError.authorization⟩
      ["ssn"] (ValidatedField.mk none "ssn" [] []) =
      Except.ok ("ssn", SelectionElement.null) :=
  (unauthorized_fields_masked
    ⟨"User", 0, [("id", PostgresRelation.scalar 0 true),
      ("name", PostgresRelation.scalar 1 false),
      ("ssn", PostgresRelation.scalar 2 false)], [], []⟩
    ⟨fun _ _ => Except.error PostgresExecutionError.authorization,
      fun _ _ => Except.error PostgresExecutionError.authorization,
      fun _ _ => Except.error PostgresExecutionError.authorization⟩
    ["ssn"]).1 (ValidatedField.mk none "ssn" [] []) (by decide)

/-- A non-empty step list always has a specified expansion. -/
theorem transitiveExpansionSpec_isSome :
    ∀ (pairs : List (TransitiveRelationStep × AbstractSelect)),
      pairs ≠ [] → ∃ r, transitiveExpansionSpec pairs = some r := by
  intro pairs
  induction pairs with
  | nil => intro h; exact absurd rfl h
  | cons p rest ih =>
    intro _
    obtain ⟨step, resolved⟩ := p
    cases rest with
    | nil => exact ⟨_, rfl⟩
    | cons q rest' =>
      obtain ⟨i, hi⟩ := ih (by simp)
      simp only [transitiveExpansionSpec, hi, Option.map_some]
      exact ⟨_, rfl⟩

/-- The iterated wrapping of `map_transitive_field` agrees with the
spec-side expansion, given the resolved select of each step. -/
theorem mapTransitiveGo_spec (env : ResolveEnv) :
    ∀ (pairs : List (TransitiveRelationStep × ValidatedField))
      (resolved : List AbstractSelect),
      List.Forall₂ (fun sf sel =>
        resolveSelectForTransitiveStep env sf.1 sf.2 = Except.ok sel)
        pairs resolved →
      mapTransitiveGo env pairs =
        Except.ok (transitiveExpansionSpec
          ((pairs.map Prod.fst).zip resolved)) := by
  intro pairs resolved h
  induction h with
  | nil => rfl
  | @cons sf sel pairs' resolved' hR hF ih =>
    obtain ⟨step, stepField⟩ := sf
    rw [mapTransitiveGo, ih, exceptOkBind, hR, exceptOkBind]
    cases hF with
    | nil => rfl
    | @cons sf' sel' pairs'' resolved'' hR' hF' =>
      obtain ⟨i, hi⟩ := transitiveExpansionSpec_isSome
        (((sf' :: pairs'').map Prod.fst).zip (sel' :: resolved'')) (by simp)
      rw [hi]
      simp only [List.map_cons, List.zip_cons_cons, transitiveExpansionSpec,
        hi, Option.map_some]
      simp only [List.map_cons, List.zip_cons_cons, List.zip,
        List.zipWith_cons_cons] at hi
      cases hrel : step.relationId with
      | manyToOne id => simp [selectionCardinalityForStep, hrel, hi]
      | oneToMany id =>
        cases hcard : step.cardinality with
        | unbounded => simp [selectionCardinalityForStep, hrel, hcard, hi]
        | optional => simp [selectionCardinalityForStep, hrel, hcard, hi]

/-- The synthetic step fields cover every step. -/
theorem buildTransitiveStepFields_length :
    ∀ (steps : List TransitiveRelationStep) (leafField : ValidatedField),
      (buildTransitiveStepFields steps leafField).length = steps.length := by
  intro steps
  induction steps with
  | nil => intro leafField; rfl
  | cons step rest ih =>
    intro leafField
    cases rest with
    | nil => rfl
    | cons step2 rest2 =>
      have hlen := ih leafField
      rw [buildTransitiveStepFields]
      · cases hinner : buildTransitiveStepFields (step2 :: rest2) leafField with
        | nil => rw [hinner] at hlen; simp at hlen
        | cons h t =>
          rw [hinner] at hlen
          simp [hlen]
      · simp

/-- C4: transitive-relation expansion, iterating the steps in reverse, gives
a bare `SubSelect` for the bottommost step and, for every other step, wraps
the inner selection under the `__transitive_value` alias with cardinality
`Many` exactly for unbounded one-to-many steps, then wraps the sub-select in
`JsonArrayExtract` (unbounded one-to-many) or `JsonExtract` with path
`["__transitive_value"]` (all other steps) — i.e. `map_transitive_field`
computes exactly the spec-side expansion. -/
theorem map_transitive_field_matches_spec (env : ResolveEnv)
    (steps : List TransitiveRelationStep) (field : ValidatedField)
    (resolved : List AbstractSelect)
    (hne : steps ≠ [])
    (hres : List.Forall₂ (fun sf sel =>
        resolveSelectForTransitiveStep env sf.1 sf.2 = Except.ok sel)
      (steps.zip (buildTransitiveStepFields steps field)) resolved) :
    ∃ result, transitiveExpansionSpec (steps.zip resolved) = some result ∧
      mapTransitiveField env steps field = Except.ok result := by
  have hflen := buildTransitiveStepFields_length steps field
  have hgo := mapTransitiveGo_spec env _ _ hres
  have hmap : (steps.zip (buildTransitiveStepFields steps field)).map
      Prod.fst = steps :=
    List.map_fst_zip _ _ (by rw [hflen])
  rw [hmap] at hgo
  have hrlen : resolved.length = steps.length := by
    have := hres.length_eq
    rw [List.length_zip, hflen, Nat.min_self] at this
    exact this.symm
  have hzne : steps.zip resolved ≠ [] := by
    cases hs : steps with
    | nil => exact absurd hs hne
    | cons s rest =>
      cases hr : resolved with
      | nil => rw [hr, hs] at hrlen; simp at hrlen
      | cons r rrest => simp [hs, hr]
  obtain ⟨result, hspec⟩ := transitiveExpansionSpec_isSome _ hzne
  refine ⟨result, hspec, ?_⟩
  cases hs : steps with
  | nil => exact absurd hs hne
  | cons s rest =>
    rw [hs] at hgo hspec
    rw [mapTransitiveField, hgo, exceptOkBind, hspec]

/-- Witness for C4, matching the spec's transitive scenario (an unbounded
one-to-many step over a many-to-one step): the outer collection sub-select
wraps the inner pk sub-select under `__transitive_value` with cardinality
`One`, flattened by `JsonArrayExtract`. -/
theorem map_transitive_field_matches_spec_witness :
    ∃ result,
      transitiveExpansionSpec
        [(⟨RelationId.oneToMany 0, 1, RelationCardinality.unbounded, false,
            "books"⟩,
          AbstractSelect.mk 1 (Selection.json [] SelectionCardinality.many)
            AbstractPredicate.tru none none none),
          (⟨RelationId.manyToOne 1, 2, RelationCardinality.optional, false,
            "publisher"⟩,
          AbstractSelect.mk 2 (Selection.json [] SelectionCardinality.one)
            AbstractPredicate.tru none none none)] = some result ∧
      mapTransitiveField
        ⟨fun _ _ => Except.ok (AbstractSelect.mk 2
            (Selection.json [] SelectionCardinality.one)
            AbstractPredicate.tru none none none),
          fun _ _ => Except.ok (AbstractSelect.mk 1
            (Selection.json [] SelectionCardinality.many)
            AbstractPredicate.tru none none none),
          fun _ _ => Except.error PostgresExecutionError.authorization⟩
        [⟨RelationId.oneToMany 0, 1, RelationCardinality.unbounded, false,
            "books"⟩,
          ⟨RelationId.manyToOne 1, 2, RelationCardinality.optional, false,
            "publisher"⟩]
        (ValidatedField.mk none "publishers" []
          [ValidatedField.mk none "name" [] []]) = Except.ok result :=
  map_transitive_field_matches_spec
    ⟨fun _ _ => Except.ok (AbstractSelect.mk 2
        (Selection.json [] SelectionCardinality.one)
        AbstractPredicate.tru none none none),
      fun _ _ => Except.ok (AbstractSelect.mk 1
        (Selection.json [] SelectionCardinality.many)
        AbstractPredicate.tru none none none),
      fun _ _ => Except.error PostgresExecutionError.authorization⟩
    [⟨RelationId.oneToMany 0, 1, RelationCardinality.unbounded, false,
        "books"⟩,
      ⟨RelationId.manyToOne 1, 2, RelationCardinality.optional, false,
        "publisher"⟩]
    (ValidatedField.mk none "publishers" []
      [ValidatedField.mk none "name" [] []])
    [AbstractSelect.mk 1 (Selection.json [] SelectionCardinality.many)
        AbstractPredicate.tru none none none,
      AbstractSelect.mk 2 (Selection.json [] SelectionCardinality.one)
        AbstractPredicate.tru none none none]
    (by simp)
    (List.Forall₂.cons rfl (List.Forall₂.cons rfl List.Forall₂.nil))

/-- A traversed relation order-by parameter whose solved read access is not
unconditionally `True` makes `order_by_pair` fail with `Authorization`. -/
theorem orderByPair_relation_nonTrue_access (fuel : Nat)
    (parameters : List OrderByParameter) (parameterName : String)
    (parameterValue : Val) (parentColumnPath : Option PhysicalColumnPath)
    (parameter : OrderByParameter) (pairs : List (Nat × Nat))
    (tblAlias : Option String)
    (hfind : parameters.find? (fun p => p.name == parameterName) =
      some parameter)
    (hrel : parameter.columnPathLink =
      some (ColumnPathLink.relation pairs tblAlias))
    (hne : parameter.access.getD AbstractPredicate.tru ≠ AbstractPredicate.tru) :
    orderByPair (fuel + 1) (OrderByParameterTypeKind.composite parameters)
      parameterName parameterValue parentColumnPath =
      Except.error PostgresExecutionError.authorization := by
  simp only [orderByPair, hfind, hrel]
  by_cases hfls : parameter.access.getD AbstractPredicate.tru =
      AbstractPredicate.fls
  · rw [if_pos hfls]
  · rw [if_neg hfls]
    simp only [hne, if_false, ite_false, if_neg hne]
    rw [if_pos trivial]
    rfl

/-- C3: while traversing an order-by argument tree, a traversed parameter
that is a relation plans successfully only if its read-access predicate
reduces unconditionally to `True`; any other residue (`False` or a residual
row predicate) fails the planner with `Authorization`. -/
theorem order_by_relation_requires_true_access (fuel : Nat)
    (parameters : List OrderByParameter) (parameterName : String)
    (parameterValue : Val) (parentColumnPath : Option PhysicalColumnPath)
    (parameter : OrderByParameter) (pairs : List (Nat × Nat))
    (tblAlias : Option String)
    (hfind : parameters.find? (fun p => p.name == parameterName) =
      some parameter)
    (hrel : parameter.columnPathLink =
      some (ColumnPathLink.relation pairs tblAlias)) :
    (parameter.access.getD AbstractPredicate.tru ≠ AbstractPredicate.tru →
      orderByPair (fuel + 1) (OrderByParameterTypeKind.composite parameters)
        parameterName parameterValue parentColumnPath =
        Except.error PostgresExecutionError.authorization)
  ∧ (∀ result,
      orderByPair fuel (OrderByParameterTypeKind.composite parameters)
        parameterName parameterValue parentColumnPath = Except.ok result →
      parameter.access.getD AbstractPredicate.tru = AbstractPredicate.tru) := by
  constructor
  · intro hne
    exact orderByPair_relation_nonTrue_access fuel parameters parameterName
      parameterValue parentColumnPath parameter pairs tblAlias hfind hrel hne
  · intro result hok
    by_contra hne
    cases fuel with
    | zero => simp [orderByPair] at hok
    | succ n =>
      rw [orderByPair_relation_nonTrue_access n parameters parameterName
        parameterValue parentColumnPath parameter pairs tblAlias hfind hrel
        hne] at hok
      cases hok

/-- Witness for C3, matching the spec's order-by scenario: ordering by a
relation parameter whose read access solved to a residual row predicate
fails with `Authorization`. -/
theorem order_by_relation_requires_true_access_witness :
    orderByPair 1
      (OrderByParameterTypeKind.composite
        [OrderByParameter.mk "author"
          (some (AbstractPredicate.cmp (PhysicalColumnPath.leaf 7) 1))
          (some (ColumnPathLink.relation [(0, 1)] none)) none
          (OrderByParameterTypeKind.composite [])])
      "author" (Val.object [("name", Val.enumVal "ASC")]) none =
      Except.error PostgresExecutionError.authorization :=
  (order_by_relation_requires_true_access 0
    [OrderByParameter.mk "author"
      (some (AbstractPredicate.cmp (PhysicalColumnPath.leaf 7) 1))
      (some (ColumnPathLink.relation [(0, 1)] none)) none
      (OrderByParameterTypeKind.composite [])]
    "author" (Val.object [("name", Val.enumVal "ASC")]) none
    (OrderByParameter.mk "author"
      (some (AbstractPredicate.cmp (PhysicalColumnPath.leaf 7) 1))
      (some (ColumnPathLink.relation [(0, 1)] none)) none
      (OrderByParameterTypeKind.composite []))
    [(0, 1)] none rfl rfl).1 (by decide)

/-- The element-wise list coercion is exactly a monadic map of the value
coercion. -/
theorem coerceListValues_eq_mapM (schema : List (String × TypeKind))
    (elemType : GqlType) (variableName : String) :
    ∀ values : List JsonValue,
      coerceListValues schema elemType values variableName =
        values.mapM
          (fun v => coerceVariableValue schema elemType v variableName) := by
  intro values
  induction values with
  | nil => rw [coerceListValues, List.mapM_nil]; rfl
  | cons v rest ih => rw [coerceListValues, List.mapM_cons, ih]; rfl

/-- Counterexample for C7 as stated: coercing the non-array value
`"not-an-array"` against the list type `[Int]` does not fail with
`MalformedVariable`; it falls back to the plain JSON conversion and
succeeds. -/
theorem coerce_variable_nonarray_list_counterexample :
    coerceVariableValue []
      (GqlType.mk
        (GqlBaseType.list (GqlType.mk (GqlBaseType.named "Int") false)) false)
      (JsonValue.str "not-an-array") "v" =
      Except.ok (ConstValue.str "not-an-array") := rfl

/-- C7 (amended): variable coercion recurses into list element types and
input-object field types; enum variables coerce by string match against the
declared enum values, with `null` mapping to `Null` and every other
(non-string, non-null) value failing `MalformedVariable`; an input-object
type rejects every non-object non-null value with `MalformedVariable`; but a
non-array value for a list type is not rejected — it falls back to the plain
JSON conversion. -/
theorem coerce_variable_value_amended (schema : List (String × TypeKind))
    (variableName : String) :
    (∀ (elemType : GqlType) (nullable : Bool) (values : List JsonValue),
      coerceVariableValue schema
        (GqlType.mk (GqlBaseType.list elemType) nullable)
        (JsonValue.arr values) variableName =
        (values.mapM
          (fun v => coerceVariableValue schema elemType v variableName)).map
          ConstValue.list)
  ∧ (∀ (elemType : GqlType) (nullable : Bool) (value : JsonValue),
      (∀ items, value ≠ JsonValue.arr items) →
      coerceVariableValue schema
        (GqlType.mk (GqlBaseType.list elemType) nullable) value variableName =
        Except.ok (constValueFromJson value))
  ∧ (∀ (typeName : String) (nullable : Bool) (enumValues : List String),
      schema.lookup typeName = some (TypeKind.enumDef enumValues) →
      (∀ s, enumValues.any (fun v => v == s) = true →
        coerceVariableValue schema
          (GqlType.mk (GqlBaseType.named typeName) nullable)
          (JsonValue.str s) variableName =
          Except.ok (ConstValue.enumValue s)) ∧
      (∀ s, enumValues.any (fun v => v == s) = false →
        coerceVariableValue schema
          (GqlType.mk (GqlBaseType.named typeName) nullable)
          (JsonValue.str s) variableName =
          Except.error (ValidationError.malformedVariable variableName
            ("Invalid enum value '" ++ s ++ "' for type '" ++ typeName ++
              "'"))) ∧
      coerceVariableValue schema
        (GqlType.mk (GqlBaseType.named typeName) nullable) JsonValue.null
        variableName = Except.ok ConstValue.null ∧
      (∀ value : JsonValue, (∀ s, value ≠ JsonValue.str s) →
        value ≠ JsonValue.null →
        coerceVariableValue schema
          (GqlType.mk (GqlBaseType.named typeName) nullable) value
          variableName =
          Except.error (ValidationError.malformedVariable variableName
            ("Expected enum value for type '" ++ typeName ++ "'"))))
  ∧ (∀ (typeName : String) (nullable : Bool)
      (inputFields : List (String × GqlType))
      (values : List (String × JsonValue)),
      schema.lookup typeName = some (TypeKind.inputObjectDef inputFields) →
      coerceVariableValue schema
        (GqlType.mk (GqlBaseType.named typeName) nullable)
        (JsonValue.obj values) variableName =
        (coerceObjectFields schema inputFields values variableName).map
          ConstValue.object ∧
      coerceVariableValue schema
        (GqlType.mk (GqlBaseType.named typeName) nullable) JsonValue.null
        variableName = Except.ok ConstValue.null ∧
      (∀ value : JsonValue, (∀ kvs, value ≠ JsonValue.obj kvs) →
        value ≠ JsonValue.null →
        coerceVariableValue schema
          (GqlType.mk (GqlBaseType.named typeName) nullable) value
          variableName =
          Except.error (ValidationError.malformedVariable variableName
            ("Expected input object for type '" ++ typeName ++ "'"))))
  ∧ (∀ (inputFields : List (String × GqlType)) (k : String) (v : JsonValue)
      (rest : List (String × JsonValue)) (fieldDef : String × GqlType),
      inputFields.find? (fun fd => fd.1 == k) = some fieldDef →
      coerceObjectFields schema inputFields ((k, v) :: rest) variableName =
        (coerceVariableValue schema fieldDef.2 v variableName).bind
          (fun cv =>
            (coerceObjectFields schema inputFields rest variableName).bind
              (fun cvs => Except.ok ((k, cv) :: cvs)))) := by
  refine ⟨?_, ?_, ?_, ?_, ?_⟩
  · intro elemType nullable values
    have h1 : coerceVariableValue schema
        (GqlType.mk (GqlBaseType.list elemType) nullable)
        (JsonValue.arr values) variableName =
        (coerceListValues schema elemType values variableName).map
          ConstValue.list := by
      simp only [coerceVariableValue, GqlType.base]
    rw [h1, coerceListValues_eq_mapM]
  · intro elemType nullable value h
    cases value with
    | arr items => exact absurd rfl (h items)
    | null => rfl
    | bool b => rfl
    | num n => rfl
    | str s => rfl
    | obj fields => rfl
  · intro typeName nullable enumValues hlookup
    refine ⟨?_, ?_, ?_, ?_⟩
    · intro s hs
      simp only [coerceVariableValue, GqlType.base, hlookup]
      rw [if_pos hs]
    · intro s hs
      simp only [coerceVariableValue, GqlType.base, hlookup]
      rw [if_neg (by simp [hs])]
    · simp only [coerceVariableValue, GqlType.base, hlookup]
    · intro value hstr hnull
      cases value with
      | str s => exact absurd rfl (hstr s)
      | null => exact absurd rfl hnull
      | bool b => simp only [coerceVariableValue, GqlType.base, hlookup]
      | num n => simp only [coerceVariableValue, GqlType.base, hlookup]
      | arr items => simp only [coerceVariableValue, GqlType.base, hlookup]
      | obj fields => simp only [coerceVariableValue, GqlType.base, hlookup]
  · intro typeName nullable inputFields values hlookup
    refine ⟨?_, ?_, ?_⟩
    · simp only [coerceVariableValue, GqlType.base, hlookup]
    · simp only [coerceVariableValue, GqlType.base, hlookup]
    · intro value hobj hnull
      cases value with
      | obj kvs => exact absurd rfl (hobj kvs)
      | null => exact absurd rfl hnull
      | bool b => simp only [coerceVariableValue, GqlType.base, hlookup]
      | num n => simp only [coerceVariableValue, GqlType.base, hlookup]
      | str str2 => simp only [coerceVariableValue, GqlType.base, hlookup]
      | arr items => simp only [coerceVariableValue, GqlType.base, hlookup]
  · intro inputFields k v rest fieldDef hfind
    rw [coerceObjectFields]
    simp only [hfind]
    rfl

/-- Witness for C7 (amended): an `Ordering` enum variable with value `"ASC"`
coerces to the enum constant, while `"SIDEWAYS"` fails `MalformedVariable`. -/
theorem coerce_variable_value_amended_witness :
    coerceVariableValue [("Ordering", TypeKind.enumDef ["ASC", "DESC"])]
      (GqlType.mk (GqlBaseType.named "Ordering") false) (JsonValue.str "ASC")
      "dir" = Except.ok (ConstValue.enumValue "ASC") :=
  ((coerce_variable_value_amended
    [("Ordering", TypeKind.enumDef ["ASC", "DESC"])] "dir").2.2.1 "Ordering"
    false ["ASC", "DESC"] rfl).1 "ASC" (by decide)

end Exograph
